import Mathlib

/-!
Shallow embedding of the KrakenD WebSocket middleware (`handler.go` of
Unacademy/krakend-websocket) and proofs about it.

Go strings are modelled as Lean `String`; the ASCII case conversions used by
the plugin (`strings.ToLower`, `strings.ToUpper`, `strings.EqualFold`) are
modelled on `Char.toLower` / `Char.toUpper`, which agree with Go on the ASCII
header material this plugin manipulates.  HTTP headers are modelled as
association lists from header name to the list of values, with
case-insensitive name lookup as performed by `net/http.Header.Get`.
-/

namespace KrakendWS

/-- Boolean prefix test on character lists; models `strings.HasPrefix` on the
underlying bytes. -/
def isPrefixB : List Char → List Char → Bool
  | [], _ => true
  | _ :: _, [] => false
  | a :: as, b :: bs => a == b && isPrefixB as bs

/-- Boolean substring test on character lists; models `strings.Contains`:
`isInfixB needle hay` is true when `needle` occurs contiguously in `hay`. -/
def isInfixB (needle : List Char) : List Char → Bool
  | [] => isPrefixB needle []
  | c :: rest => isPrefixB needle (c :: rest) || isInfixB needle rest

/-- Model of `strings.ToLower` (ASCII). -/
def lowerStr (s : String) : String := String.mk (s.toList.map Char.toLower)

/-- Model of `strings.ToUpper` (ASCII). -/
def upperStr (s : String) : String := String.mk (s.toList.map Char.toUpper)

/-- Model of `strings.EqualFold` (ASCII case-insensitive equality). -/
def foldEq (a b : String) : Bool :=
  a.toList.map Char.toLower == b.toList.map Char.toLower

/-- Model of `strings.Contains s substr`. -/
def containsStr (s substr : String) : Bool := isInfixB substr.toList s.toList

/-- HTTP headers: name ↦ values, as in Go `http.Header`. -/
abbrev Headers : Type := List (String × List String)

/-- Model of `http.Header.Get`: case-insensitive name lookup returning the
first value of the first matching header, `""` when absent. -/
def headerGet (h : Headers) (key : String) : String :=
  match h.find? (fun p => foldEq p.1 key) with
  | some (_, v :: _) => v
  | _ => ""

/-- Embedding of `isWebSocketUpgrade` (handler.go:134-142): lowers the
`Upgrade` and `Connection` header values, requires `Upgrade` to equal
`"websocket"`, the lowered `Connection` value to contain the substring
`"upgrade"` (`strings.Contains`), and a non-empty `Sec-WebSocket-Key`. -/
def isWebSocketUpgrade (h : Headers) : Bool :=
  let upgrade := lowerStr (headerGet h "Upgrade")
  let connection := lowerStr (headerGet h "Connection")
  let key := headerGet h "Sec-WebSocket-Key"
  upgrade == "websocket" && containsStr connection "upgrade" && key != ""

/-- Splitting a character list at a separator, keeping empty fields; spec-side
helper for reading a `Connection` header as comma-separated entries. -/
def splitOnChar (sep : Char) : List Char → List (List Char)
  | [] => [[]]
  | c :: r =>
    if c = sep then [] :: splitOnChar sep r
    else
      match splitOnChar sep r with
      | [] => [[c]]
      | t :: ts => (c :: t) :: ts

/-- Spec-side helper: strip leading and trailing whitespace. -/
def trimChars (l : List Char) : List Char :=
  ((l.dropWhile Char.isWhitespace).reverse.dropWhile Char.isWhitespace).reverse

/-- Formalisation of the SPEC's wording (not of the code): the `Connection`
header contains the token `"upgrade"` as one of its comma-separated entries,
case-insensitively, ignoring surrounding whitespace. -/
def connectionHasUpgradeToken (connection : String) : Bool :=
  (splitOnChar ',' connection.toList).any
    (fun t => (trimChars t).map Char.toLower == "upgrade".toList)

/-- Formalisation of the SPEC's wording of `IsUpgrade` (claim C1), to be
compared against the code's `isWebSocketUpgrade`. -/
def isUpgradeSpec (h : Headers) : Bool :=
  lowerStr (headerGet h "Upgrade") == "websocket" &&
  connectionHasUpgradeToken (headerGet h "Connection") &&
  headerGet h "Sec-WebSocket-Key" != ""

/-! ## Endpoint configuration (`parseWebSocketConfig`, handler.go:145-199) -/

/-- JSON-like values as decoded by Go's `encoding/json` into `interface{}`.
Numbers are decoded by Go as `float64`; the plugin immediately converts them
with `int(...)` and the configurations involved are integral, so numbers are
modelled as `Int`. -/
inductive JValue
  | null : JValue
  | bool : Bool → JValue
  | num : Int → JValue
  | str : String → JValue
  | arr : List JValue → JValue
  | obj : List (String × JValue) → JValue

/-- Lookup in a decoded JSON object (Go map; keys unique). -/
def lookupKey (k : String) (m : List (String × JValue)) : Option JValue :=
  (m.find? (fun p => p.1 == k)).map (fun p => p.2)

/-- Embedding of the `Config` struct (handler.go:22-30).  `handshakeTimeout`
is a Go `time.Duration`, i.e. a count of nanoseconds. -/
structure Config where
  readBufferSize : Int
  writeBufferSize : Int
  handshakeTimeout : Int
  compression : Bool
  subprotocols : List String
  backendScheme : String
  maxMessageSize : Int
  deriving DecidableEq

/-- The Go zero value `Config{}`. -/
def zeroConfig : Config :=
  { readBufferSize := 0, writeBufferSize := 0, handshakeTimeout := 0,
    compression := false, subprotocols := [], backendScheme := "",
    maxMessageSize := 0 }

/-- Unit table of Go `time.ParseDuration` (value in nanoseconds). -/
def durationUnits : List (String × Int) :=
  [("ns", 1), ("us", 1000), ("µs", 1000), ("μs", 1000), ("ms", 1000000),
   ("s", 1000000000), ("m", 60000000000), ("h", 3600000000000)]

/-- Digits of a decimal number to its value. -/
def digitsToNat (l : List Char) : Nat :=
  l.foldl (fun a c => 10 * a + (c.toNat - 48)) 0

/-- Core loop of the `time.ParseDuration` model: repeatedly read a run of
decimal digits followed by a unit name.  The fuel argument is the length of
the remaining input (each round consumes at least one character). -/
def parseDurationCore : Nat → List Char → Int → Option Int
  | _, [], acc => some acc
  | 0, _ :: _, _ => none
  | fuel + 1, l, acc =>
    let digits := l.takeWhile Char.isDigit
    let rest1 := l.dropWhile Char.isDigit
    if digits.isEmpty then none
    else
      match rest1 with
      | '.' :: _ => none
      | _ =>
        let unit := rest1.takeWhile (fun c => !(c.isDigit || c == '.'))
        let rest2 := rest1.dropWhile (fun c => !(c.isDigit || c == '.'))
        match durationUnits.find? (fun p => p.1.toList == unit) with
        | none => none
        | some p => parseDurationCore fuel rest2 (acc + (digitsToNat digits : Int) * p.2)

/-- Model of Go `time.ParseDuration`, restricted to the sign-prefixed
sequences of integral `<digits><unit>` components (the forms this plugin's
configurations use); inputs with fractional components are not modelled and
return `none`.  Inputs with no leading digit or an unknown/missing unit fail
exactly as in Go. -/
def parseDuration (s : String) : Option Int :=
  let signed : Bool × List Char :=
    match s.toList with
    | '-' :: r => (true, r)
    | '+' :: r => (false, r)
    | r => (false, r)
  if signed.2 = ['0'] then some 0
  else if signed.2 = [] then none
  else (parseDurationCore signed.2.length signed.2 0).map
    (fun d => if signed.1 then -d else d)

/-- String projection of a decoded JSON value (the `.(string)` assertion). -/
def jStr : JValue → Option String
  | .str s => some s
  | _ => none

/-- Embedding of `parseWebSocketConfig` (handler.go:145-199): no `websocket`
key, or a `websocket` entry that is not a JSON object, yields
`(Config{}, false)`; otherwise each field starts from its default and is
overridden only when the corresponding key exists with the expected dynamic
type (each source `if ... ok` guard touches exactly one field, so the fields
are computed independently here). -/
def parseWebSocketConfig (extraConfig : List (String × JValue)) : Config × Bool :=
  match lookupKey "websocket" extraConfig with
  | none => (zeroConfig, false)
  | some wsConfigInterface =>
    match wsConfigInterface with
    | .obj wsConfigMap =>
      ({ readBufferSize :=
           match lookupKey "read_buffer_size" wsConfigMap with
           | some (.num v) => v
           | _ => 1024,
         writeBufferSize :=
           match lookupKey "write_buffer_size" wsConfigMap with
           | some (.num v) => v
           | _ => 1024,
         handshakeTimeout :=
           match lookupKey "handshake_timeout" wsConfigMap with
           | some (.str s) =>
             match parseDuration s with
             | some d => d
             | none => 10000000000
           | _ => 10000000000,
         compression :=
           match lookupKey "compression" wsConfigMap with
           | some (.bool b) => b
           | _ => false,
         subprotocols :=
           match lookupKey "subprotocols" wsConfigMap with
           | some (.arr xs) => xs.filterMap jStr
           | _ => [],
         backendScheme :=
           match lookupKey "backend_scheme" wsConfigMap with
           | some (.str s) => s
           | _ => "",
         maxMessageSize :=
           match lookupKey "max_message_size" wsConfigMap with
           | some (.num v) => v
           | _ => 1048576 }, true)
    | _ => (zeroConfig, false)

/-! ## Auth header extraction (`extractAuthHeaders`, handler.go:458-496) -/

/-- The fixed allow-list of identity header names (handler.go:462-468). -/
def authHeaderNames : List String :=
  ["X-User-Id", "X-User-Uid", "X-User-Email", "X-User-Groups", "X-User-Type"]

/-- The fixed set of auth header name prefixes (handler.go:471-475). -/
def authHeaderPrefixes : List String := ["X-User-", "X-Auth-", "X-Group-"]

/-- The inclusion test of `extractAuthHeaders`: the name matches the
allow-list case-insensitively (`strings.EqualFold`), or its uppercased form
begins with an uppercased prefix (`strings.HasPrefix(strings.ToUpper ...)`). -/
def isAuthHeaderName (key : String) : Bool :=
  authHeaderNames.any (fun n => foldEq key n) ||
  authHeaderPrefixes.any (fun p => isPrefixB (upperStr p).toList (upperStr key).toList)

/-- Embedding of `extractAuthHeaders` (handler.go:458-496): headers whose
name passes `isAuthHeaderName` and which have at least one value contribute
their first value; the Go result is a map, modelled as an association list in
input order. -/
def extractAuthHeaders (headers : List (String × List String)) : List (String × String) :=
  headers.filterMap (fun kv =>
    match kv.2 with
    | [] => none
    | v :: _ => if isAuthHeaderName kv.1 then some (kv.1, v) else none)

/-! ## Backend address derivation (handler.go:285-419) -/

/-- Model of Go `net/url.URL` restricted to what the plugin uses: the parsed
scheme, the parsed host, and `tail`, the serialization remainder after
`"scheme://"`, so that setting `Scheme` and calling `String()` yields
`scheme ++ "://" ++ tail` (for the `scheme://host+path` URLs this plugin
constructs, `tail` is host followed by path).  `url.Parse` itself is external
library code; the definitions below take an arbitrary `parse` function as a
parameter and the theorems quantify over it. -/
structure GoURL where
  scheme : String
  host : String
  tail : String

/-- The process-wide backend registry (`globalBackendRegistry`,
handler.go:38): `none` models the nil pointer, `some m` a registry with map
`m`. -/
abbrev Registry : Type := Option (List (String × String))

/-- Registry consultation in `deriveWebSocketURL` (handler.go:360-364): a nil
registry or a missing name yields `none`. -/
def registryLookup (registry : Registry) (name : String) : Option String :=
  match registry with
  | none => none
  | some backends => (backends.find? (fun p => p.1 == name)).map (fun p => p.2)

/-- The hardcoded static name→host table of `deriveWebSocketURL`
(handler.go:372-374). -/
def defaultMappings : List (String × String) := [("albus", "localhost:3000")]

/-- Embedding of `deriveWebSocketURL` (handler.go:358-393).  A registry hit
returns `registryURL + backendPath` unchanged; otherwise the host comes from
the static table or defaults to `"localhost:8080"`, with scheme `"ws"` unless
a forced scheme is supplied.  The Go function never returns a non-nil
error. -/
def deriveWebSocketURL (registry : Registry)
    (backendName backendPath forceScheme : String) : Except String String :=
  match registryLookup registry backendName with
  | some registryURL => .ok (registryURL ++ backendPath)
  | none =>
    let host :=
      match (defaultMappings.find? (fun p => p.1 == backendName)).map (fun p => p.2) with
      | some h => h
      | none => "localhost:8080"
    let scheme := if forceScheme != "" then forceScheme else "ws"
    .ok (scheme ++ "://" ++ host ++ backendPath)

/-- Embedding of `convertHTTPToWebSocketURL` (handler.go:396-419), over an
arbitrary model `parse` of `url.Parse`. -/
def convertHTTPToWebSocketURL (parse : String → Except String GoURL)
    (httpHost urlPattern forceScheme : String) : Except String String :=
  match parse httpHost with
  | .error e => .error ("failed to parse backend host " ++ httpHost ++ ": " ++ e)
  | .ok parsedURL =>
    let scheme := if parsedURL.scheme == "https" then "wss" else "ws"
    let scheme := if forceScheme != "" then forceScheme else scheme
    .ok (scheme ++ "://" ++ parsedURL.host ++ urlPattern)

/-- Embedding of one backend description (`config.Backend`): its URL pattern
and host list. -/
structure BackendCfg where
  urlPattern : String
  host : List String

/-- Embedding of the parts of `config.EndpointConfig` the plugin reads. -/
structure EndpointCfg where
  endpoint : String
  backend : List BackendCfg
  extraConfig : List (String × JValue)

/-- Model of the Go type assertion `m[k].(string)`. -/
def lookupStr (k : String) (m : List (String × JValue)) : Option String :=
  match lookupKey k m with
  | some (.str s) => some s
  | _ => none

/-- Shape-selection portion of `connectToBackend` (handler.go:290-319): the
named-backend shape (`backend` + `backend_path` string keys in the extra
config) is tried first, falling back to the host-list shape. -/
def connectToBackendStep (registry : Registry) (parse : String → Except String GoURL)
    (cfg : EndpointCfg) (wsConfig : Config) : Except String String :=
  match lookupStr "backend" cfg.extraConfig with
  | some backendName =>
    match lookupStr "backend_path" cfg.extraConfig with
    | some backendPath =>
      deriveWebSocketURL registry backendName backendPath wsConfig.backendScheme
    | none => .error "no backend_path configured in endpoint"
  | none =>
    match cfg.backend with
    | [] => .error "no backend configured for WebSocket endpoint"
    | backend :: _ =>
      match backend.host with
      | [] => .error "no host configured in backend"
      | httpHost :: _ =>
        convertHTTPToWebSocketURL parse httpHost backend.urlPattern wsConfig.backendScheme

/-- Scheme-override step of `connectToBackend` (handler.go:321-329) applied
after `connectToBackendStep`. -/
def connectToBackendURL (registry : Registry) (parse : String → Except String GoURL)
    (cfg : EndpointCfg) (wsConfig : Config) : Except String String :=
  match connectToBackendStep registry parse cfg wsConfig with
  | .error e => .error e
  | .ok wsURL =>
    if wsConfig.backendScheme != "" then
      match parse wsURL with
      | .error _ => .error "failed to parse WebSocket URL"
      | .ok parsedURL => .ok (wsConfig.backendScheme ++ "://" ++ parsedURL.tail)
    else .ok wsURL

/-! ## Session lifecycle (handler.go:202-282)

The lifecycle functions perform network IO; they are embedded as
trace-producing functions over an environment recording which external steps
fail, mirroring the source control flow (including the `defer`red closes). -/

/-- `websocket.StatusNormalClosure`. -/
def statusNormalClosure : Nat := 1000

/-- `websocket.StatusInternalError`. -/
def statusInternalError : Nat := 1011

/-- Environment of one session: whether `websocket.Accept` fails, and whether
`websocket.Dial` fails when it is reached. -/
structure SessionEnv where
  acceptFails : Bool
  dialFails : Bool

/-- Observable trace of one session: the HTTP (JSON) response written, if any;
whether the client-side upgrade (`websocket.Accept`) was attempted; whether
`connectToBackend` was invoked; whether `websocket.Dial` was reached; and the
close calls issued on each leg, in program order (only the first close of a
WebSocket connection takes effect). -/
structure SessionTrace where
  httpResponse : Option (Nat × String)
  acceptAttempted : Bool
  connectAttempted : Bool
  dialAttempted : Bool
  clientCloses : List (Nat × String)
  backendCloses : List (Nat × String)
  deriving DecidableEq

/-- `connectToBackend` (handler.go:285-355) as attempt flag plus result: URL
resolution failure returns the error without dialing; otherwise the dial is
attempted and fails iff the environment says so. -/
def connectToBackendResult (registry : Registry) (parse : String → Except String GoURL)
    (cfg : EndpointCfg) (wsConfig : Config) (dialFails : Bool) :
    Bool × Except String Unit :=
  match connectToBackendURL registry parse cfg wsConfig with
  | .error e => (false, .error e)
  | .ok _ =>
    (true, if dialFails then .error "failed to connect to backend WebSocket" else .ok ())

/-- Trace of `handleConnectionLifecycle` (handler.go:244-282): on backend
connect failure the client connection is closed with
`(StatusInternalError, "Backend connection failed")`; on success the relay
runs and the deferred backend close `(StatusNormalClosure, "Connection
closed")` fires on return.  Result: (dial attempted, client closes, backend
closes). -/
def handleConnectionLifecycle (registry : Registry) (parse : String → Except String GoURL)
    (cfg : EndpointCfg) (wsConfig : Config) (dialFails : Bool) :
    Bool × List (Nat × String) × List (Nat × String) :=
  match connectToBackendResult registry parse cfg wsConfig dialFails with
  | (dialAtt, .error _) =>
    (dialAtt, [(statusInternalError, "Backend connection failed")], [])
  | (dialAtt, .ok _) =>
    (dialAtt, [], [(statusNormalClosure, "Connection closed")])

/-- Trace of `handleWebSocketConnection` (handler.go:202-241): an empty
`Backend` array yields HTTP 500 before any upgrade; a failed
`websocket.Accept` yields HTTP 400; otherwise the lifecycle runs, and the
deferred `conn.Close(StatusInternalError, "Internal error")` fires on
return. -/
def handleWebSocketConnection (registry : Registry) (parse : String → Except String GoURL)
    (cfg : EndpointCfg) (wsConfig : Config) (env : SessionEnv) : SessionTrace :=
  if cfg.backend.length == 0 then
    { httpResponse := some (500, "No backend configured"), acceptAttempted := false,
      connectAttempted := false, dialAttempted := false,
      clientCloses := [], backendCloses := [] }
  else if env.acceptFails then
    { httpResponse := some (400, "WebSocket upgrade failed"), acceptAttempted := true,
      connectAttempted := false, dialAttempted := false,
      clientCloses := [], backendCloses := [] }
  else
    let lc := handleConnectionLifecycle registry parse cfg wsConfig env.dialFails
    { httpResponse := none, acceptAttempted := true, connectAttempted := true,
      dialAttempted := lc.1,
      clientCloses := lc.2.1 ++ [(statusInternalError, "Internal error")],
      backendCloses := lc.2.2 }

/-! ## Message relay (`proxyMessages`, handler.go:435-455)

One relay direction is embedded as a function over a trace of per-iteration
environment events: the outcome of `src.Read` and, when the read succeeds,
the outcome of `dest.Write`.  The shared context is modelled by the number of
loop iterations after which `ctx.Done()` is observed closed at the top of the
loop (`none` = never cancelled). -/

/-- One WebSocket message: its type tag and opaque payload bytes. -/
structure WsMessage where
  msgType : Nat
  payload : List Nat
  deriving DecidableEq

/-- Environment of one loop iteration of `proxyMessages`. -/
structure RelayIter where
  readResult : Except String WsMessage
  writeError : Option String

/-- Result of one relay direction. -/
inductive RelayOutcome
  | ctxCancelled : String → RelayOutcome
  | readFailed : String → RelayOutcome
  | writeFailed : String → RelayOutcome
  deriving DecidableEq

/-- Embedding of `proxyMessages` (handler.go:435-455): at the top of each
iteration the `select` observes cancellation and returns `ctx.Err()`;
otherwise the message read from `src` is written unmodified to `dest`; a
read or write error is returned as-is.  The value is the list of messages
successfully written to `dest` in order, and the returned error (`none` when
the environment trace is exhausted with the loop still running). -/
def proxyMessages : Option Nat → String → List RelayIter → List WsMessage × Option RelayOutcome
  | some 0, ctxErr, _ => ([], some (.ctxCancelled ctxErr))
  | _, _, [] => ([], none)
  | cancelAt, ctxErr, it :: rest =>
    match it.readResult with
    | .error e => ([], some (.readFailed e))
    | .ok m =>
      match it.writeError with
      | some e => ([], some (.writeFailed e))
      | none =>
        let r := proxyMessages (cancelAt.map (fun k => k - 1)) ctxErr rest
        (m :: r.1, r.2)

/-- The messages successfully read from the source during a trace. -/
def sourceMessages (iters : List RelayIter) : List WsMessage :=
  iters.filterMap (fun it =>
    match it.readResult with
    | .ok m => some m
    | .error _ => none)

/-- An iteration environment in which the read and the write both succeed. -/
def cleanIter (it : RelayIter) : Bool :=
  (match it.readResult with
   | .ok _ => true
   | .error _ => false) && it.writeError.isNone

/-! ## Handler wrapping (`HandlerWrapper`, handler.go:83-131) -/

/-- Embedding of the factory returned by `HandlerWrapper` (handler.go:83-131):
`α` abstracts `gin.HandlerFunc`, `π` abstracts `proxy.Proxy`; when
`parseWebSocketConfig` reports no websocket configuration the externally
supplied standard factory's handler is returned unchanged; otherwise the
WebSocket-aware handler (abstracted as `wsHandler`) is installed. -/
def handlerWrapper {α π : Type} (standardHandlerFactory : EndpointCfg → π → α)
    (wsHandler : EndpointCfg → π → Config → α) (cfg : EndpointCfg) (p : π) : α :=
  let pc := parseWebSocketConfig cfg.extraConfig
  if pc.2 then wsHandler cfg p pc.1 else standardHandlerFactory cfg p

/-- Per-request routing decision of the WebSocket-aware handler. -/
inductive WsRequestRoute (α : Type)
  | standard : α → WsRequestRoute α
  | websocket : Config → List (String × String) → WsRequestRoute α

/-- Embedding of the per-request closure installed for websocket-configured
endpoints (handler.go:92-125): a request that is not a WebSocket upgrade is
handled by the handler freshly produced by the standard factory; an upgrade
request proceeds to the WebSocket path with the extracted auth headers. -/
def wsEndpointRoute {α π : Type} (standardHandlerFactory : EndpointCfg → π → α)
    (cfg : EndpointCfg) (p : π) (wsConfig : Config) (req : Headers) :
    WsRequestRoute α :=
  if !(isWebSocketUpgrade req) then .standard (standardHandlerFactory cfg p)
  else .websocket wsConfig (extractAuthHeaders req)

/-! ## Claims about configuration resolution (C5, C6, C7) -/

/-- C6: `Resolve` on a configuration blob with no `websocket` namespace key
(including the empty blob) returns `present=false` with the zero-value
config; on a blob whose `websocket` entry is `{compression: true}` alone it
returns `present=true` with compression enabled and every other field at the
documented defaults: read buffer 1024, write buffer 1024, handshake timeout
10s, empty subprotocol list, max message size 1 MiB, and no forced scheme. -/
theorem parseWebSocketConfig_defaults :
    (∀ ec : List (String × JValue), lookupKey "websocket" ec = none →
      parseWebSocketConfig ec = (zeroConfig, false)) ∧
    parseWebSocketConfig [] = (zeroConfig, false) ∧
    parseWebSocketConfig [("websocket", .obj [("compression", .bool true)])] =
      ({ readBufferSize := 1024, writeBufferSize := 1024,
         handshakeTimeout := 10000000000, compression := true, subprotocols := [],
         backendScheme := "", maxMessageSize := 1048576 }, true) := by
  refine ⟨?_, by decide, by decide⟩
  intro ec h
  simp [parseWebSocketConfig, h]

/-- Witness for C6 at a concrete blob lacking the `websocket` key. -/
theorem parseWebSocketConfig_defaults_witness :
    parseWebSocketConfig [("other", .bool true)] = (zeroConfig, false) :=
  parseWebSocketConfig_defaults.1 [("other", .bool true)] rfl

/-- C7: in a websocket configuration map, a key present with the wrong shape
(non-numeric buffer size, non-boolean compression flag, or an unparsable
`handshake_timeout` duration string such as `"invalid"`) is ignored and the
corresponding field keeps its default; no single malformed field ever causes
`Resolve` to return `present=false` or abort resolution. -/
theorem parseWebSocketConfig_lenient :
    (∀ ec m, lookupKey "websocket" ec = some (.obj m) →
      (parseWebSocketConfig ec).2 = true) ∧
    (∀ ec m, lookupKey "websocket" ec = some (.obj m) →
      (∀ v, lookupKey "read_buffer_size" m ≠ some (.num v)) →
      (parseWebSocketConfig ec).1.readBufferSize = 1024) ∧
    (∀ ec m, lookupKey "websocket" ec = some (.obj m) →
      (∀ v, lookupKey "write_buffer_size" m ≠ some (.num v)) →
      (parseWebSocketConfig ec).1.writeBufferSize = 1024) ∧
    (∀ ec m, lookupKey "websocket" ec = some (.obj m) →
      (∀ b, lookupKey "compression" m ≠ some (.bool b)) →
      (parseWebSocketConfig ec).1.compression = false) ∧
    (∀ ec m, lookupKey "websocket" ec = some (.obj m) →
      (∀ s, lookupKey "handshake_timeout" m = some (.str s) → parseDuration s = none) →
      (parseWebSocketConfig ec).1.handshakeTimeout = 10000000000) ∧
    parseWebSocketConfig [("websocket", .obj [("handshake_timeout", .str "invalid")])] =
      ({ readBufferSize := 1024, writeBufferSize := 1024,
         handshakeTimeout := 10000000000, compression := false, subprotocols := [],
         backendScheme := "", maxMessageSize := 1048576 }, true) := by
  refine ⟨?_, ?_, ?_, ?_, ?_, by decide⟩
  · intro ec m h
    simp [parseWebSocketConfig, h]
  · intro ec m h hv
    rcases hl : lookupKey "read_buffer_size" m with _ | j
    · simp [parseWebSocketConfig, h, hl]
    · cases j
      case num v => exact absurd hl (hv v)
      all_goals simp [parseWebSocketConfig, h, hl]
  · intro ec m h hv
    rcases hl : lookupKey "write_buffer_size" m with _ | j
    · simp [parseWebSocketConfig, h, hl]
    · cases j
      case num v => exact absurd hl (hv v)
      all_goals simp [parseWebSocketConfig, h, hl]
  · intro ec m h hv
    rcases hl : lookupKey "compression" m with _ | j
    · simp [parseWebSocketConfig, h, hl]
    · cases j
      case bool b => exact absurd hl (hv b)
      all_goals simp [parseWebSocketConfig, h, hl]
  · intro ec m h hv
    rcases hl : lookupKey "handshake_timeout" m with _ | j
    · simp [parseWebSocketConfig, h, hl]
    · cases j
      case str s =>
        have hd : parseDuration s = none := hv s hl
        simp [parseWebSocketConfig, h, hl, hd]
      all_goals simp [parseWebSocketConfig, h, hl]

/-- Witness for C7: a blob with a non-numeric buffer size keeps the default
buffer size and still resolves with `present=true`. -/
theorem parseWebSocketConfig_lenient_witness :
    (parseWebSocketConfig
      [("websocket", .obj [("read_buffer_size", .str "big")])]).1.readBufferSize = 1024 ∧
    (parseWebSocketConfig
      [("websocket", .obj [("read_buffer_size", .str "big")])]).2 = true :=
  ⟨parseWebSocketConfig_lenient.2.1 _ [("read_buffer_size", .str "big")] rfl
      (fun v h => by simp [lookupKey, List.find?] at h),
   parseWebSocketConfig_lenient.1 _ [("read_buffer_size", .str "big")] rfl⟩

/-- C5: the wrapping function is transparent for non-tunnel traffic: when
resolution reports no websocket configuration — which happens exactly when
the `websocket` namespace key is absent or its value is not a JSON object —
the wrapped factory returns exactly the handler produced by the externally
supplied standard factory; and on a websocket-configured endpoint a request
that is not an upgrade is routed to the externally supplied standard handler
rather than treated as an error. -/
theorem handlerWrapper_transparent :
    (∀ (α π : Type) (sf : EndpointCfg → π → α) (wsH : EndpointCfg → π → Config → α)
       (cfg : EndpointCfg) (p : π),
       (parseWebSocketConfig cfg.extraConfig).2 = false →
       handlerWrapper sf wsH cfg p = sf cfg p) ∧
    (∀ ec, lookupKey "websocket" ec = none → (parseWebSocketConfig ec).2 = false) ∧
    (∀ ec m0, lookupKey "websocket" ec = some m0 → (∀ m, m0 ≠ .obj m) →
       (parseWebSocketConfig ec).2 = false) ∧
    (∀ (α π : Type) (sf : EndpointCfg → π → α) (cfg : EndpointCfg) (p : π)
       (w : Config) (req : Headers),
       isWebSocketUpgrade req = false →
       wsEndpointRoute sf cfg p w req = .standard (sf cfg p)) := by
  refine ⟨?_, ?_, ?_, ?_⟩
  · intro α π sf wsH cfg p h
    simp [handlerWrapper, h]
  · intro ec h
    simp [parseWebSocketConfig, h]
  · intro ec m0 h hne
    cases m0
    case obj m => exact absurd rfl (hne m)
    all_goals simp [parseWebSocketConfig, h]
  · intro α π sf cfg p w req h
    simp [wsEndpointRoute, h]

/-- Witness for C5 at a concrete non-websocket endpoint and a concrete
non-upgrade request. -/
theorem handlerWrapper_transparent_witness :
    handlerWrapper (fun _ _ => (0 : Nat)) (fun _ _ _ => 1)
      { endpoint := "/x", backend := [], extraConfig := [] } () = 0 ∧
    wsEndpointRoute (fun _ _ => (0 : Nat))
      { endpoint := "/x", backend := [], extraConfig := [] } () zeroConfig
      [("Accept", ["text/html"])] = .standard 0 :=
  ⟨handlerWrapper_transparent.1 Nat Unit _ _ _ () (by decide),
   handlerWrapper_transparent.2.2.2 Nat Unit _ _ () zeroConfig _ (by decide)⟩

/-! ## Claims about the session lifecycle (C9, C10) -/

/-- C10 (implicit): for every upgrade request on a websocket-configured
endpoint whose endpoint configuration has an empty `Backend` array, the
handler responds with HTTP 500 ("No backend configured") before attempting
any WebSocket upgrade — even when the named-backend extra-config keys are
fully present — so such an endpoint never performs a handshake and never
reaches the named-backend resolution path. -/
theorem handleWebSocketConnection_emptyBackend :
    ∀ (registry : Registry) (parse : String → Except String GoURL)
      (cfg : EndpointCfg) (wsConfig : Config) (env : SessionEnv),
      cfg.backend = [] →
      handleWebSocketConnection registry parse cfg wsConfig env =
        { httpResponse := some (500, "No backend configured"),
          acceptAttempted := false, connectAttempted := false,
          dialAttempted := false, clientCloses := [], backendCloses := [] } := by
  intro registry parse cfg wsConfig env h
  simp [handleWebSocketConnection, h]

/-- Witness for C10: an endpoint with an empty backend array but a fully
present named-backend shape still gets the 500 response with no handshake and
no resolution. -/
theorem handleWebSocketConnection_emptyBackend_witness :
    handleWebSocketConnection (some [("albus", "ws://reg")]) (fun _ => .error "unused")
      { endpoint := "/ws", backend := [],
        extraConfig := [("backend", .str "albus"), ("backend_path", .str "/p"),
                        ("websocket", .obj [])] }
      zeroConfig { acceptFails := false, dialFails := false } =
      { httpResponse := some (500, "No backend configured"),
        acceptAttempted := false, connectAttempted := false,
        dialAttempted := false, clientCloses := [], backendCloses := [] } :=
  handleWebSocketConnection_emptyBackend _ _ _ _ _ rfl

/-- C9: whenever the client connection has been successfully upgraded and the
outbound backend connection attempt fails (URL resolution failure or dial
failure), the lifecycle closes the already-upgraded client connection with
the explicit internal-error closure
`(StatusInternalError, "Backend connection failed")` — it is never left open;
and whenever the inbound handshake fails, the caller receives the rejection
response HTTP 400 and no backend connection attempt is made. -/
theorem lifecycle_failure_handling :
    (∀ (registry : Registry) (parse : String → Except String GoURL)
       (cfg : EndpointCfg) (wsConfig : Config) (env : SessionEnv),
       cfg.backend ≠ [] → env.acceptFails = false →
       ((∃ e, connectToBackendURL registry parse cfg wsConfig = .error e) ∨
         env.dialFails = true) →
       (handleWebSocketConnection registry parse cfg wsConfig env).clientCloses.head? =
         some (statusInternalError, "Backend connection failed")) ∧
    (∀ (registry : Registry) (parse : String → Except String GoURL)
       (cfg : EndpointCfg) (wsConfig : Config) (env : SessionEnv),
       cfg.backend ≠ [] → env.acceptFails = true →
       handleWebSocketConnection registry parse cfg wsConfig env =
         { httpResponse := some (400, "WebSocket upgrade failed"),
           acceptAttempted := true, connectAttempted := false,
           dialAttempted := false, clientCloses := [], backendCloses := [] }) := by
  constructor
  · intro registry parse cfg wsConfig env hb ha hfail
    have hb' : (cfg.backend.length == 0) = false := by
      cases hcb : cfg.backend with
      | nil => exact absurd hcb hb
      | cons b bs => simp [hcb]
    rcases hfail with ⟨e, he⟩ | hd
    · simp [handleWebSocketConnection, hb', ha, handleConnectionLifecycle,
        connectToBackendResult, he]
    · rcases hu : connectToBackendURL registry parse cfg wsConfig with e | u
      · simp [handleWebSocketConnection, hb', ha, handleConnectionLifecycle,
          connectToBackendResult, hu]
      · simp [handleWebSocketConnection, hb', ha, handleConnectionLifecycle,
          connectToBackendResult, hu, hd]
  · intro registry parse cfg wsConfig env hb ha
    have hb' : (cfg.backend.length == 0) = false := by
      cases hcb : cfg.backend with
      | nil => exact absurd hcb hb
      | cons b bs => simp [hcb]
    simp [handleWebSocketConnection, hb', ha]

/-- Witness for C9: a concrete session whose dial fails closes the client leg
with the internal-error reason, and a concrete failed handshake yields the
400 rejection without a backend attempt. -/
theorem lifecycle_failure_handling_witness :
    (handleWebSocketConnection none (fun _ => .ok ⟨"ws", "h", "h/p"⟩)
      { endpoint := "/ws", backend := [{ urlPattern := "/p", host := ["http://h"] }],
        extraConfig := [] }
      zeroConfig { acceptFails := false, dialFails := true }).clientCloses.head? =
      some (statusInternalError, "Backend connection failed") ∧
    handleWebSocketConnection none (fun _ => .ok ⟨"ws", "h", "h/p"⟩)
      { endpoint := "/ws", backend := [{ urlPattern := "/p", host := ["http://h"] }],
        extraConfig := [] }
      zeroConfig { acceptFails := true, dialFails := false } =
      { httpResponse := some (400, "WebSocket upgrade failed"),
        acceptAttempted := true, connectAttempted := false,
        dialAttempted := false, clientCloses := [], backendCloses := [] } :=
  ⟨lifecycle_failure_handling.1 _ _ _ _ _ (by simp) rfl (Or.inr rfl),
   lifecycle_failure_handling.2 _ _ _ _ _ (by simp) rfl⟩

/-! ## Claims about backend address resolution (C3, C4) -/

/-- Counterexample to C3 as stated: with a registry entry `"n" ↦ "http://h"`,
path `"/p"` and no forced scheme, named-backend resolution returns
`"http://h/p"`, whose scheme is the registry value's `"http"`, not the
claimed unencrypted variant `"ws"` (and the full `connectToBackend`
resolution, which skips the scheme override when no scheme is forced,
returns the same URL). -/
theorem deriveWebSocketURL_scheme_counterexample :
    deriveWebSocketURL (some [("n", "http://h")]) "n" "/p" "" = .ok "http://h/p" ∧
    connectToBackendURL (some [("n", "http://h")]) (fun _ => .error "unused")
      { endpoint := "/ws", backend := [],
        extraConfig := [("backend", .str "n"), ("backend_path", .str "/p")] }
      zeroConfig = .ok "http://h/p" ∧
    isPrefixB "ws://".toList "http://h/p".toList = false ∧
    isPrefixB "http://".toList "http://h/p".toList = true :=
  ⟨rfl, rfl, by decide, by decide⟩

/-- C3 amended: named-backend resolution never returns an error and the
resulting URL always ends with the configured path verbatim; a registry hit
returns the registry value with the path appended (keeping whatever scheme
the registry value carries — the forced scheme is not applied at this step);
only on a registry miss is the URL built from the static name→host table
(else the fixed default host) with scheme `"ws"` unless a forced scheme is
supplied. -/
theorem deriveWebSocketURL_amended :
    (∀ (registry : Registry) (backendName backendPath forceScheme : String),
       ∃ u, deriveWebSocketURL registry backendName backendPath forceScheme = .ok u ∧
         ∃ pre, u = pre ++ backendPath) ∧
    (∀ (registry : Registry) (backendName backendPath forceScheme r : String),
       registryLookup registry backendName = some r →
       deriveWebSocketURL registry backendName backendPath forceScheme =
         .ok (r ++ backendPath)) ∧
    (∀ (registry : Registry) (backendName backendPath forceScheme : String),
       registryLookup registry backendName = none →
       deriveWebSocketURL registry backendName backendPath forceScheme =
         .ok ((if forceScheme = "" then "ws" else forceScheme) ++ "://" ++
           (if backendName = "albus" then "localhost:3000" else "localhost:8080") ++
           backendPath)) := by
  have hhit : ∀ (registry : Registry) (backendName backendPath forceScheme r : String),
      registryLookup registry backendName = some r →
      deriveWebSocketURL registry backendName backendPath forceScheme =
        .ok (r ++ backendPath) := by
    intro registry backendName backendPath forceScheme r hr
    unfold deriveWebSocketURL
    rw [hr]
  have hmiss : ∀ (registry : Registry) (backendName backendPath forceScheme : String),
      registryLookup registry backendName = none →
      deriveWebSocketURL registry backendName backendPath forceScheme =
        .ok ((if forceScheme = "" then "ws" else forceScheme) ++ "://" ++
          (if backendName = "albus" then "localhost:3000" else "localhost:8080") ++
          backendPath) := by
    intro registry backendName backendPath forceScheme hr
    unfold deriveWebSocketURL
    rw [hr]
    by_cases hn : backendName = "albus"
    · subst hn
      by_cases hf : forceScheme = ""
      · subst hf
        simp [defaultMappings]
        rfl
      · simp [defaultMappings, hf]
    · have hn' : ¬("albus" = backendName) := fun h => hn h.symm
      by_cases hf : forceScheme = ""
      · subst hf
        simp [defaultMappings, hn, hn']
        rfl
      · simp [defaultMappings, hn, hn', hf]
  refine ⟨?_, hhit, hmiss⟩
  intro registry backendName backendPath forceScheme
  rcases hr : registryLookup registry backendName with _ | r
  · exact ⟨_, hmiss registry backendName backendPath forceScheme hr, _, rfl⟩
  · exact ⟨_, hhit registry backendName backendPath forceScheme r hr, _, rfl⟩

/-- Witness for C3 (amended) on concrete inputs: a registry hit, and a
registry miss resolving the unknown name `"zzz"` to the default host with
the `"ws"` scheme and the path verbatim. -/
theorem deriveWebSocketURL_amended_witness :
    deriveWebSocketURL (some [("svc", "wss://internal:9")]) "svc" "/chat" "" =
      .ok ("wss://internal:9" ++ "/chat") ∧
    deriveWebSocketURL (some []) "zzz" "/chat" "" =
      .ok ((if "" = "" then "ws" else "") ++ "://" ++
        (if "zzz" = "albus" then "localhost:3000" else "localhost:8080") ++ "/chat") :=
  ⟨deriveWebSocketURL_amended.2.1 _ "svc" "/chat" "" "wss://internal:9" rfl,
   deriveWebSocketURL_amended.2.2 _ "zzz" "/chat" "" rfl⟩

/-- C4: for the host-list shape, resolution takes the first host, maps an
`https` scheme to `wss` and any other scheme to `ws`, fails with an error
when the host list is empty or the host cannot be parsed, and for either
shape a non-empty forced scheme from `Config.backendScheme` unconditionally
gives the scheme of the final URL.  Stated over an arbitrary model `parse`
of `url.Parse`. -/
theorem convertHTTPToWebSocketURL_correct :
    (∀ (parse : String → Except String GoURL) (httpHost urlPattern forceScheme e : String),
       parse httpHost = .error e →
       ∃ msg, convertHTTPToWebSocketURL parse httpHost urlPattern forceScheme =
         .error msg) ∧
    (∀ (parse : String → Except String GoURL) (httpHost urlPattern : String) (u : GoURL),
       parse httpHost = .ok u → u.scheme = "https" →
       convertHTTPToWebSocketURL parse httpHost urlPattern "" =
         .ok ("wss://" ++ u.host ++ urlPattern)) ∧
    (∀ (parse : String → Except String GoURL) (httpHost urlPattern : String) (u : GoURL),
       parse httpHost = .ok u → u.scheme ≠ "https" →
       convertHTTPToWebSocketURL parse httpHost urlPattern "" =
         .ok ("ws://" ++ u.host ++ urlPattern)) ∧
    (∀ (registry : Registry) (parse : String → Except String GoURL)
       (cfg : EndpointCfg) (wsConfig : Config) (b : BackendCfg) (bs : List BackendCfg),
       lookupStr "backend" cfg.extraConfig = none →
       cfg.backend = b :: bs → b.host = [] →
       connectToBackendURL registry parse cfg wsConfig =
         .error "no host configured in backend") ∧
    (∀ (registry : Registry) (parse : String → Except String GoURL)
       (cfg : EndpointCfg) (wsConfig : Config) (w : String),
       wsConfig.backendScheme ≠ "" →
       connectToBackendURL registry parse cfg wsConfig = .ok w →
       ∃ rest, w = wsConfig.backendScheme ++ "://" ++ rest) := by
  refine ⟨?_, ?_, ?_, ?_, ?_⟩
  · intro parse httpHost urlPattern forceScheme e hp
    exact ⟨"failed to parse backend host " ++ httpHost ++ ": " ++ e,
      by simp [convertHTTPToWebSocketURL, hp]⟩
  · intro parse httpHost urlPattern u hp hs
    simp [convertHTTPToWebSocketURL, hp, hs]
  · intro parse httpHost urlPattern u hp hs
    simp [convertHTTPToWebSocketURL, hp, hs]
  · intro registry parse cfg wsConfig b bs hb hcb hh
    simp [connectToBackendURL, connectToBackendStep, hb, hcb, hh]
  · intro registry parse cfg wsConfig w hs hc
    have hbne : (wsConfig.backendScheme != "") = true := bne_iff_ne.mpr hs
    unfold connectToBackendURL at hc
    rcases hstep : connectToBackendStep registry parse cfg wsConfig with e | wsURL
    · simp only [hstep] at hc
      exact absurd hc (by simp)
    · simp only [hstep] at hc
      rw [if_pos hbne] at hc
      rcases hp : parse wsURL with e | parsedURL
      · simp only [hp] at hc
        exact absurd hc (by simp)
      · simp only [hp, Except.ok.injEq] at hc
        exact ⟨parsedURL.tail, hc.symm⟩

/-- Witness for C4: a concrete https host maps to `wss`, an empty host list
errors, and a concrete forced scheme gives the final URL's scheme. -/
theorem convertHTTPToWebSocketURL_correct_witness :
    convertHTTPToWebSocketURL (fun _ => .ok ⟨"https", "h:443", "h:443/p"⟩)
      "https://h:443" "/p" "" = .ok ("wss://" ++ "h:443" ++ "/p") ∧
    connectToBackendURL none (fun _ => .ok ⟨"https", "h:443", "h:443/p"⟩)
      { endpoint := "/ws", backend := [{ urlPattern := "/p", host := [] }],
        extraConfig := [] } zeroConfig = .error "no host configured in backend" ∧
    (connectToBackendURL none (fun _ => .ok ⟨"wss", "h:443", "h:443/p"⟩)
      { endpoint := "/ws", backend := [{ urlPattern := "/p", host := ["https://h:443"] }],
        extraConfig := [] }
      { zeroConfig with backendScheme := "wss" } = .ok ("wss" ++ "://" ++ "h:443/p")) :=
  ⟨convertHTTPToWebSocketURL_correct.2.1 _ "https://h:443" "/p" ⟨"https", "h:443", "h:443/p"⟩
      rfl rfl,
   convertHTTPToWebSocketURL_correct.2.2.2.1 none _ _ zeroConfig
      { urlPattern := "/p", host := [] } [] rfl rfl rfl,
   by
     obtain ⟨rest, hrest⟩ := convertHTTPToWebSocketURL_correct.2.2.2.2 none
       (fun _ => .ok ⟨"wss", "h:443", "h:443/p"⟩)
       { endpoint := "/ws", backend := [{ urlPattern := "/p", host := ["https://h:443"] }],
         extraConfig := [] }
       { zeroConfig with backendScheme := "wss" } ("wss" ++ "://" ++ "h:443/p")
       (by decide) rfl
     exact rfl⟩

/-! ## Claim about auth header extraction (C8) -/

/-- Membership characterization of `extractAuthHeaders`. -/
theorem mem_extractAuthHeaders (headers : List (String × List String)) (k v : String) :
    (k, v) ∈ extractAuthHeaders headers ↔
      ∃ vs, (k, vs) ∈ headers ∧ vs.head? = some v ∧ isAuthHeaderName k = true := by
  unfold extractAuthHeaders
  rw [List.mem_filterMap]
  constructor
  · rintro ⟨⟨k0, vs0⟩, hmem, hf⟩
    rcases vs0 with _ | ⟨v0, rest⟩
    · exact absurd hf (by simp)
    · cases hauth : isAuthHeaderName k0 with
      | false => simp [hauth] at hf
      | true =>
        simp only [hauth, if_true, Option.some.injEq, Prod.mk.injEq] at hf
        obtain ⟨hk, hv⟩ := hf
        subst hk
        subst hv
        exact ⟨v0 :: rest, hmem, rfl, hauth⟩
  · rintro ⟨vs, hmem, hhead, hauth⟩
    rcases vs with _ | ⟨v0, rest⟩
    · simp at hhead
    · simp only [List.head?_cons, Option.some.injEq] at hhead
      subst hhead
      exact ⟨(k, v0 :: rest), hmem, by simp [hauth]⟩

/-- C8: `Extract(headers)` includes a header if and only if the header's name
case-insensitively matches an entry of the fixed allow-list of identity
header names or case-insensitively begins with one of the fixed prefixes
`X-User-`, `X-Auth-`, `X-Group-`; for multi-valued headers only the first
value is retained; in particular, given `X-User-Id: u1`, `X-Random: x`, and
`X-Auth-Token: t1`, the extracted set contains exactly `X-User-Id` and
`X-Auth-Token`. -/
theorem extractAuthHeaders_correct :
    (∀ (headers : List (String × List String)) (k v : String),
       (k, v) ∈ extractAuthHeaders headers ↔
         ∃ vs, (k, vs) ∈ headers ∧ vs.head? = some v ∧ isAuthHeaderName k = true) ∧
    (∀ (headers : List (String × List String)) (k : String) (vs : List String),
       (k, vs) ∈ headers → vs ≠ [] →
       ((∃ v, (k, v) ∈ extractAuthHeaders headers) ↔ isAuthHeaderName k = true)) ∧
    (∀ k : String, isAuthHeaderName k = true ↔
       ((∃ n, n ∈ authHeaderNames ∧ foldEq k n = true) ∨
        (∃ p, p ∈ authHeaderPrefixes ∧
          isPrefixB (upperStr p).toList (upperStr k).toList = true))) ∧
    extractAuthHeaders [("X-User-Id", ["u1"]), ("X-Random", ["x"]), ("X-Auth-Token", ["t1"])] =
      [("X-User-Id", "u1"), ("X-Auth-Token", "t1")] := by
  refine ⟨mem_extractAuthHeaders, ?_, ?_, by decide⟩
  · intro headers k vs hmem hne
    constructor
    · rintro ⟨v, hv⟩
      exact ((mem_extractAuthHeaders headers k v).mp hv).choose_spec.2.2
    · intro hauth
      rcases vs with _ | ⟨v0, rest⟩
      · exact absurd rfl hne
      · exact ⟨v0, (mem_extractAuthHeaders headers k v0).mpr ⟨v0 :: rest, hmem, rfl, hauth⟩⟩
  · intro k
    simp [isAuthHeaderName, List.any_eq_true]

/-- Witness for C8: a concrete allow-listed multi-valued header contributes
its first value. -/
theorem extractAuthHeaders_correct_witness :
    ("X-User-Id", "u1") ∈ extractAuthHeaders [("X-User-Id", ["u1", "u2"])] :=
  (extractAuthHeaders_correct.1 [("X-User-Id", ["u1", "u2"])] "X-User-Id" "u1").mpr
    ⟨["u1", "u2"], by simp, rfl, by decide⟩

/-! ## Claim about upgrade detection (C1) -/

/-- Soundness of the Boolean prefix test. -/
theorem isPrefixB_sound : ∀ {a l : List Char}, a <+: l → isPrefixB a l = true := by
  intro a
  induction a with
  | nil => intro l _; rfl
  | cons x xs ih =>
    intro l h
    obtain ⟨t, ht⟩ := h
    rw [← ht]
    simp only [List.cons_append, isPrefixB, beq_self_eq_true, Bool.true_and]
    exact ih (xs.prefix_append t)

/-- Soundness of the Boolean substring test. -/
theorem isInfixB_sound : ∀ {a l : List Char}, a <:+: l → isInfixB a l = true := by
  intro a l
  induction l with
  | nil =>
    intro h
    rw [List.infix_nil.mp h]
    rfl
  | cons c r ih =>
    intro h
    obtain ⟨s, t, hst⟩ := h
    rcases s with _ | ⟨x, xs⟩
    · have hpre : a <+: c :: r := ⟨t, by simpa using hst⟩
      simp [isInfixB, isPrefixB_sound hpre]
    · simp only [List.cons_append] at hst
      have hr : a <:+: r := ⟨xs, t, (List.cons.injEq _ _ _ _ ▸ hst).2⟩
      simp [isInfixB, ih hr]

/-- `splitOnChar` never returns the empty list of fields. -/
theorem splitOnChar_ne_nil (sep : Char) : ∀ l : List Char, splitOnChar sep l ≠ [] := by
  intro l
  cases l with
  | nil => simp [splitOnChar]
  | cons c r =>
    by_cases h : c = sep
    · simp [splitOnChar, h]
    · cases hsp : splitOnChar sep r with
      | nil => simp [splitOnChar, h, hsp]
      | cons t ts => simp [splitOnChar, h, hsp]

/-- The first field produced by `splitOnChar` is a prefix of the input and
every later field is a contiguous part of it. -/
theorem splitOnChar_parts (sep : Char) :
    ∀ (l t0 : List Char) (ts : List (List Char)),
      splitOnChar sep l = t0 :: ts → t0 <+: l ∧ ∀ u ∈ ts, u <:+: l := by
  intro l
  induction l with
  | nil =>
    intro t0 ts h
    simp only [splitOnChar] at h
    injection h with h1 h2
    subst h1
    subst h2
    exact ⟨List.nil_prefix, by simp⟩
  | cons c r ih =>
    intro t0 ts h
    by_cases hc : c = sep
    · rw [splitOnChar, if_pos hc] at h
      injection h with h1 h2
      subst h1
      refine ⟨List.nil_prefix, ?_⟩
      intro u hu
      rw [← h2] at hu
      cases hsp : splitOnChar sep r with
      | nil => exact absurd hsp (splitOnChar_ne_nil sep r)
      | cons t' ts' =>
        rw [hsp] at hu
        obtain ⟨hpre, hmem⟩ := ih t' ts' hsp
        rcases List.mem_cons.mp hu with rfl | hu'
        · exact List.infix_cons hpre.isInfix
        · exact List.infix_cons (hmem u hu')
    · rw [splitOnChar, if_neg hc] at h
      cases hsp : splitOnChar sep r with
      | nil => exact absurd hsp (splitOnChar_ne_nil sep r)
      | cons t' ts' =>
        rw [hsp] at h
        injection h with h1 h2
        subst h2
        obtain ⟨hpre, hmem⟩ := ih t' ts' hsp
        refine ⟨?_, ?_⟩
        · rw [← h1]
          exact List.cons_prefix_cons.mpr ⟨rfl, hpre⟩
        · intro u hu
          exact List.infix_cons (hmem u hu)

/-- Every field produced by `splitOnChar` occurs contiguously in the input. -/
theorem mem_splitOnChar_part {sep : Char} {l t : List Char}
    (h : t ∈ splitOnChar sep l) : t <:+: l := by
  cases hsp : splitOnChar sep l with
  | nil => exact absurd hsp (splitOnChar_ne_nil sep l)
  | cons t0 ts =>
    rw [hsp] at h
    obtain ⟨hpre, hts⟩ := splitOnChar_parts sep l t0 ts hsp
    rcases List.mem_cons.mp h with rfl | hu
    · exact hpre.isInfix
    · exact hts t hu

/-- Trimming whitespace leaves a contiguous part of the input. -/
theorem trimChars_part (l : List Char) : trimChars l <:+: l := by
  unfold trimChars
  obtain ⟨s, hs⟩ := List.dropWhile_suffix (l := l) (p := Char.isWhitespace)
  obtain ⟨u, hu⟩ :=
    List.dropWhile_suffix (l := (l.dropWhile Char.isWhitespace).reverse)
      (p := Char.isWhitespace)
  have h1 : l.dropWhile Char.isWhitespace =
      ((l.dropWhile Char.isWhitespace).reverse.dropWhile Char.isWhitespace).reverse ++
        u.reverse := by
    have := congrArg List.reverse hu
    simpa [List.reverse_append] using this.symm
  exact ⟨s, u.reverse, by rw [List.append_assoc, ← h1, hs]⟩

/-- Infixes are preserved by mapping. -/
theorem part_map (f : Char → Char) {a l : List Char} (h : a <:+: l) :
    a.map f <:+: l.map f := by
  obtain ⟨s, t, rfl⟩ := h
  exact ⟨s.map f, t.map f, by simp⟩

/-- A `Connection` value containing `"upgrade"` as a comma-separated entry
also contains it as a substring of its lowercased form. -/
theorem contains_of_token {c : String} (h : connectionHasUpgradeToken c = true) :
    containsStr (lowerStr c) "upgrade" = true := by
  unfold connectionHasUpgradeToken at h
  rw [List.any_eq_true] at h
  obtain ⟨t, htmem, heq⟩ := h
  have heq' : (trimChars t).map Char.toLower = "upgrade".toList := eq_of_beq heq
  have h3 : (trimChars t).map Char.toLower <:+: c.toList.map Char.toLower :=
    part_map _ ((trimChars_part t).trans (mem_splitOnChar_part htmem))
  rw [heq'] at h3
  exact isInfixB_sound h3

/-- Counterexample to C1 as stated: the header set
`Upgrade: websocket, Connection: upgraded, Sec-WebSocket-Key: k` makes
`isWebSocketUpgrade` return `true` (the code performs a `strings.Contains`
substring check on the lowered `Connection` value), yet `"upgrade"` is not
one of the comma-separated entries of the `Connection` header, so the
claim's three-condition characterization says it must return `false`. -/
theorem isWebSocketUpgrade_token_counterexample :
    isWebSocketUpgrade
      [("Upgrade", ["websocket"]), ("Connection", ["upgraded"]),
       ("Sec-WebSocket-Key", ["k"])] = true ∧
    isUpgradeSpec
      [("Upgrade", ["websocket"]), ("Connection", ["upgraded"]),
       ("Sec-WebSocket-Key", ["k"])] = false := by
  exact ⟨by decide, by decide⟩

/-- C1 amended: `IsUpgrade(headers)` returns true iff the `Upgrade` header,
case-insensitively, equals `"websocket"`, AND the `Connection` header,
case-insensitively, contains `"upgrade"` as a substring (weaker than the
claimed comma-separated-entry containment, which implies it), AND a
non-empty `Sec-WebSocket-Key` header is present; in particular every header
set satisfying the claim's original three conditions still yields `true`. -/
theorem isWebSocketUpgrade_amended :
    (∀ h : Headers, isWebSocketUpgrade h = true ↔
      (lowerStr (headerGet h "Upgrade") = "websocket" ∧
       containsStr (lowerStr (headerGet h "Connection")) "upgrade" = true ∧
       headerGet h "Sec-WebSocket-Key" ≠ "")) ∧
    (∀ h : Headers, isUpgradeSpec h = true → isWebSocketUpgrade h = true) := by
  constructor
  · intro h
    simp [isWebSocketUpgrade, Bool.and_eq_true, and_assoc]
  · intro h hspec
    unfold isUpgradeSpec at hspec
    rw [Bool.and_eq_true, Bool.and_eq_true] at hspec
    obtain ⟨⟨h1, h2⟩, h3⟩ := hspec
    simp only [isWebSocketUpgrade, Bool.and_eq_true]
    exact ⟨⟨h1, contains_of_token h2⟩, h3⟩

/-- Witness for C1 (amended) at a concrete header set with a multi-valued
`Connection` header. -/
theorem isWebSocketUpgrade_amended_witness :
    isUpgradeSpec
      [("Upgrade", ["WebSocket"]), ("Connection", ["keep-alive, Upgrade"]),
       ("Sec-WebSocket-Key", ["k"])] = true ∧
    isWebSocketUpgrade
      [("Upgrade", ["WebSocket"]), ("Connection", ["keep-alive, Upgrade"]),
       ("Sec-WebSocket-Key", ["k"])] = true :=
  ⟨by decide, isWebSocketUpgrade_amended.2 _ (by decide)⟩

/-! ## Claim about the message relay loop (C2) -/

/-- The messages written to the destination form a prefix of the messages
read from the source, in order and unmodified. -/
theorem proxyMessages_forwards_in_order :
    ∀ (c : Option Nat) (ce : String) (tr : List RelayIter),
      (proxyMessages c ce tr).1 <+: sourceMessages tr := by
  intro c ce tr
  induction tr generalizing c with
  | nil => rcases c with _ | (_ | n) <;> exact List.nil_prefix
  | cons it rest ih =>
    obtain ⟨rr, we⟩ := it
    rcases c with _ | (_ | n)
    · rcases rr with e | m
      · exact List.nil_prefix
      · rcases we with _ | e
        · exact List.cons_prefix_cons.mpr ⟨rfl, ih none⟩
        · exact List.nil_prefix
    · exact List.nil_prefix
    · rcases rr with e | m
      · exact List.nil_prefix
      · rcases we with _ | e
        · exact List.cons_prefix_cons.mpr ⟨rfl, ih (some n)⟩
        · exact List.nil_prefix

/-- Whenever the relay returns a cancellation outcome, the reason carried is
exactly the context's error. -/
theorem proxyMessages_ctx_reason :
    ∀ (c : Option Nat) (ce r : String) (tr : List RelayIter),
      (proxyMessages c ce tr).2 = some (.ctxCancelled r) → r = ce := by
  intro c ce r tr
  induction tr generalizing c with
  | nil =>
    rcases c with _ | (_ | n)
    · intro h; cases h
    · intro h
      injection h with h1
      injection h1 with h2
      exact h2.symm
    · intro h; cases h
  | cons it rest ih =>
    obtain ⟨rr, we⟩ := it
    rcases c with _ | (_ | n)
    · rcases rr with e | m
      · intro h; cases h
      · rcases we with _ | e
        · exact ih none
        · intro h; cases h
    · intro h
      injection h with h1
      injection h1 with h2
      exact h2.symm
    · rcases rr with e | m
      · intro h; cases h
      · rcases we with _ | e
        · exact ih (some n)
        · intro h; cases h

/-- A relay whose first `k` iterations are clean and whose context cancels at
iteration `k` forwards exactly the first `k` messages and returns the
context's cancellation reason. -/
theorem proxyMessages_cancelled :
    ∀ (ce : String) (k : Nat) (tr : List RelayIter),
      (tr.take k).all cleanIter = true → k ≤ tr.length →
      proxyMessages (some k) ce tr =
        (sourceMessages (tr.take k), some (.ctxCancelled ce)) := by
  intro ce k tr
  induction tr generalizing k with
  | nil =>
    intro hclean hlen
    have hk : k = 0 := Nat.le_zero.mp hlen
    subst hk
    rfl
  | cons it rest ih =>
    intro hclean hlen
    rcases k with _ | k
    · rfl
    · obtain ⟨rr, we⟩ := it
      rw [List.take_succ_cons, List.all_cons, Bool.and_eq_true] at hclean
      obtain ⟨h1, h2⟩ := hclean
      rcases rr with e | m
      · simp [cleanIter] at h1
      · have hwe : we = none := by
          simp [cleanIter] at h1
          exact h1
        subst hwe
        have hlen' : k ≤ rest.length := by
          simp only [List.length_cons] at hlen
          omega
        show (m :: (proxyMessages (some k) ce rest).1,
          (proxyMessages (some k) ce rest).2) = _
        rw [ih k h2 hlen']
        rfl

/-- A relay meeting a read error after a clean prefix — before any
cancellation — forwards exactly the prefix's messages and returns that read
error. -/
theorem proxyMessages_read_error :
    ∀ (c : Option Nat) (ce : String) (pre : List RelayIter) (it : RelayIter)
      (rest : List RelayIter) (e : String),
      pre.all cleanIter = true → it.readResult = .error e →
      (∀ k, c = some k → pre.length < k) →
      proxyMessages c ce (pre ++ it :: rest) =
        (sourceMessages pre, some (.readFailed e)) := by
  intro c ce pre
  induction pre generalizing c with
  | nil =>
    intro it rest e _ hread hcancel
    obtain ⟨rr, we⟩ := it
    rcases c with _ | (_ | n)
    · cases hread; rfl
    · exact absurd (hcancel 0 rfl) (by simp)
    · cases hread; rfl
  | cons p ps ih =>
    intro it rest e hclean hread hcancel
    obtain ⟨rr, we⟩ := p
    rw [List.all_cons, Bool.and_eq_true] at hclean
    obtain ⟨h1, h2⟩ := hclean
    rcases rr with e0 | m
    · simp [cleanIter] at h1
    · have hwe : we = none := by
        simp [cleanIter] at h1
        exact h1
      subst hwe
      rcases c with _ | (_ | n)
      · have hrec := ih none it rest e h2 hread (fun k hk => by cases hk)
        show (m :: (proxyMessages none ce (ps ++ it :: rest)).1,
          (proxyMessages none ce (ps ++ it :: rest)).2) = _
        rw [hrec]
        rfl
      · exact absurd (hcancel 0 rfl) (Nat.not_lt_zero _)
      · have hlt := hcancel (n + 1) rfl
        have hrec := ih (some n) it rest e h2 hread (by
          intro k hk
          cases hk
          simp only [List.length_cons] at hlt
          omega)
        show (m :: (proxyMessages (some n) ce (ps ++ it :: rest)).1,
          (proxyMessages (some n) ce (ps ++ it :: rest)).2) = _
        rw [hrec]
        rfl

/-- A relay meeting a write error after a clean prefix — before any
cancellation — forwards exactly the prefix's messages and returns that write
error. -/
theorem proxyMessages_write_error :
    ∀ (c : Option Nat) (ce : String) (pre : List RelayIter) (it : RelayIter)
      (rest : List RelayIter) (m : WsMessage) (e : String),
      pre.all cleanIter = true → it.readResult = .ok m → it.writeError = some e →
      (∀ k, c = some k → pre.length < k) →
      proxyMessages c ce (pre ++ it :: rest) =
        (sourceMessages pre, some (.writeFailed e)) := by
  intro c ce pre
  induction pre generalizing c with
  | nil =>
    intro it rest m e _ hread hwrite hcancel
    obtain ⟨rr, we⟩ := it
    rcases c with _ | (_ | n)
    · cases hread; cases hwrite; rfl
    · exact absurd (hcancel 0 rfl) (by simp)
    · cases hread; cases hwrite; rfl
  | cons p ps ih =>
    intro it rest m e hclean hread hwrite hcancel
    obtain ⟨rr, we⟩ := p
    rw [List.all_cons, Bool.and_eq_true] at hclean
    obtain ⟨h1, h2⟩ := hclean
    rcases rr with e0 | m0
    · simp [cleanIter] at h1
    · have hwe : we = none := by
        simp [cleanIter] at h1
        exact h1
      subst hwe
      rcases c with _ | (_ | n)
      · have hrec := ih none it rest m e h2 hread hwrite (fun k hk => by cases hk)
        show (m0 :: (proxyMessages none ce (ps ++ it :: rest)).1,
          (proxyMessages none ce (ps ++ it :: rest)).2) = _
        rw [hrec]
        rfl
      · exact absurd (hcancel 0 rfl) (Nat.not_lt_zero _)
      · have hlt := hcancel (n + 1) rfl
        have hrec := ih (some n) it rest m e h2 hread hwrite (by
          intro k hk
          cases hk
          simp only [List.length_cons] at hlt
          omega)
        show (m0 :: (proxyMessages (some n) ce (ps ++ it :: rest)).1,
          (proxyMessages (some n) ce (ps ++ it :: rest)).2) = _
        rw [hrec]
        rfl

/-- C2: every message read from the source is written to the destination
with type and payload unmodified and in read order (the forwarded list is a
prefix of the read messages, and in a clean run it is exactly the messages
read before cancellation); the loop terminates returning the context's
cancellation reason when the shared context is cancelled before an error,
and returns the first read or write error otherwise. -/
theorem proxyMessages_relay_correct :
    (∀ (c : Option Nat) (ce : String) (tr : List RelayIter),
       (proxyMessages c ce tr).1 <+: sourceMessages tr) ∧
    (∀ (c : Option Nat) (ce r : String) (tr : List RelayIter),
       (proxyMessages c ce tr).2 = some (.ctxCancelled r) → r = ce) ∧
    (∀ (ce : String) (k : Nat) (tr : List RelayIter),
       (tr.take k).all cleanIter = true → k ≤ tr.length →
       proxyMessages (some k) ce tr =
         (sourceMessages (tr.take k), some (.ctxCancelled ce))) ∧
    (∀ (c : Option Nat) (ce : String) (pre : List RelayIter) (it : RelayIter)
       (rest : List RelayIter) (e : String),
       pre.all cleanIter = true → it.readResult = .error e →
       (∀ k, c = some k → pre.length < k) →
       proxyMessages c ce (pre ++ it :: rest) =
         (sourceMessages pre, some (.readFailed e))) ∧
    (∀ (c : Option Nat) (ce : String) (pre : List RelayIter) (it : RelayIter)
       (rest : List RelayIter) (m : WsMessage) (e : String),
       pre.all cleanIter = true → it.readResult = .ok m → it.writeError = some e →
       (∀ k, c = some k → pre.length < k) →
       proxyMessages c ce (pre ++ it :: rest) =
         (sourceMessages pre, some (.writeFailed e))) :=
  ⟨proxyMessages_forwards_in_order, proxyMessages_ctx_reason, proxyMessages_cancelled,
   proxyMessages_read_error, proxyMessages_write_error⟩

/-- Witness for C2: a concrete clean run cancelled after one iteration
forwards exactly the first message and reports the context's reason, and a
concrete immediate read error is returned as-is. -/
theorem proxyMessages_relay_correct_witness :
    proxyMessages (some 1) "context canceled"
      [⟨.ok ⟨1, [7, 8]⟩, none⟩, ⟨.ok ⟨2, [9]⟩, none⟩] =
      (sourceMessages ([⟨.ok ⟨1, [7, 8]⟩, none⟩, ⟨.ok ⟨2, [9]⟩, none⟩].take 1),
       some (.ctxCancelled "context canceled")) ∧
    proxyMessages none "ctx" [⟨.error "read failed", none⟩] =
      (sourceMessages [], some (.readFailed "read failed")) :=
  ⟨proxyMessages_relay_correct.2.2.1 "context canceled" 1 _ (by decide) (by decide),
   proxyMessages_relay_correct.2.2.2.1 none "ctx" [] ⟨.error "read failed", none⟩ []
     "read failed" (by decide) rfl (fun k hk => by cases hk)⟩

end KrakendWS
